import Mathlib

/-
Verification of the calendar event layout and interval-resolution engine of
the sa-marketing-calendar repository.

Embedding conventions:
* Calendar dates are stored in the source as canonical YYYY-MM-DD strings.
  String comparison on canonical dates coincides with chronological order,
  and the JS millisecond arithmetic used by the drag handlers (UTC parsing of
  date-only strings, 86400000 ms per day) is day-number arithmetic.  We embed
  a date as its day number (an Int, days since 1970-01-01), so the string
  comparisons of the source become Int comparisons and getTime differences
  become Int differences.
* The recurrence materializer manipulates the year/month/day structure of
  dates (date-fns addYears with end-of-month clamping), so for that function
  dates are embedded as civil (year, month, day) triples.
* The store updateEvent merges a partial record into the event, so the
  mutations issued by the drop handler are embedded as an explicit Mutation
  value; endDate set to undefined clears the field.
-/

namespace Cal

/-- Event categories, from EventType in src/lib/types.ts. -/
inductive EventType
  | publicHoliday
  | schoolTerm
  | backToSchool
  | season
  | culture
  | brandMoment
  | campaignFlight
  | keyDate
  | deadline
deriving DecidableEq

/-- CalendarEvent from src/lib/types.ts, restricted to the fields the core
logic reads; dates are day numbers (see the header comment). -/
structure CalendarEvent where
  id : String
  brandId : Option String
  title : String
  type : EventType
  startDate : Int
  endDate : Option Int
deriving DecidableEq

/-- Gregorian leap-year test. -/
def isLeapYear (y : Int) : Bool :=
  (y % 4 == 0 && y % 100 != 0) || y % 400 == 0

/-- Number of days in a civil month (month is 1-12). -/
def daysInMonth (y : Int) (m : Nat) : Nat :=
  if m = 2 then (if isLeapYear y then 29 else 28)
  else if m = 4 ∨ m = 6 ∨ m = 9 ∨ m = 11 then 30
  else 31

/-- Day number (days since 1970-01-01) of a civil date; the standard
days-from-civil computation, with the 400-year era taken by floor division
(Int division here is euclidean, which agrees with floor for the positive
divisors used). -/
def daysFromCivil (y : Int) (m : Nat) (d : Nat) : Int :=
  let yAdj : Int := if m ≤ 2 then y - 1 else y
  let era : Int := yAdj / 400
  let yoe : Int := yAdj - era * 400
  let mp : Int := if 2 < m then (m : Int) - 3 else (m : Int) + 9
  let doy : Int := (153 * mp + 2) / 5 + (d : Int) - 1
  let doe : Int := yoe * 365 + yoe / 4 - yoe / 100 + doy
  era * 146097 + doe - 719468

/-- JS getDay of a day number: 0 = Sunday .. 6 = Saturday; day 0 (1970-01-01)
was a Thursday (4). -/
def dayOfWeek (d : Int) : Int := (d + 4) % 7

/-- date-fns startOfWeek with weekStartsOn = 1: the Monday on or before d. -/
def startOfWeekMonday (d : Int) : Int := d - (dayOfWeek d + 6) % 7

/-- date-fns endOfWeek with weekStartsOn = 1: the Sunday on or after d. -/
def endOfWeekSunday (d : Int) : Int := startOfWeekMonday d + 6

/-- canExtendEvent from DailyViewModal: only these categories support
multi-day extension. -/
def canExtendEvent (t : EventType) : Bool :=
  match t with
  | .brandMoment | .campaignFlight | .deadline => true
  | _ => false

/-- durationDays of the spec (section 4.1): effectiveEnd minus start. -/
def durationDays (ev : CalendarEvent) : Int :=
  ev.endDate.getD ev.startDate - ev.startDate

/-- The two mutable drag slots of DailyViewModal (draggedEvent for move mode,
extendingEvent for extend mode); Idle is both slots empty. -/
structure DragState where
  draggedEvent : Option CalendarEvent
  extendingEvent : Option CalendarEvent
deriving DecidableEq

/-- The Idle drag state. -/
def idleState : DragState := { draggedEvent := none, extendingEvent := none }

/-- handleDragStart from DailyViewModal: unconditionally stores the event in
the move slot and clears the extend slot. -/
def handleDragStart (ev : CalendarEvent) (_s : DragState) : DragState :=
  { draggedEvent := some ev, extendingEvent := none }

/-- handleExtendStart from DailyViewModal: stores the event in the extend
slot and clears the move slot. -/
def handleExtendStart (ev : CalendarEvent) (_s : DragState) : DragState :=
  { draggedEvent := none, extendingEvent := some ev }

/-- The draggable attribute of the single-day DayEventPill body: set
unconditionally in the JSX, with onDragStart wired to handleDragStart. -/
def dayEventPillMoveDraggable (_ev : CalendarEvent) : Bool := true

/-- canEdit on the multi-day event bar: draggable only for brand events. -/
def eventBarCanEdit (ev : CalendarEvent) : Bool := ev.brandId.isSome

/-- canExtend on the DayEventPill extend handle: extendable category and a
non-null brand. -/
def dayEventPillCanExtend (ev : CalendarEvent) : Bool :=
  canExtendEvent ev.type && ev.brandId.isSome

/-- An updateEvent call issued by the drop handler.  setEndDate with none
models the endDate field being cleared (set to undefined). -/
inductive Mutation
  | setEndDate (id : String) (endDate : Option Int)
  | setStartDate (id : String) (startDate : Int)
  | setStartAndEnd (id : String) (startDate endDate : Int)
deriving DecidableEq

/-- handleDrop from DailyViewModal (drop resolution).  Returns the mutation
issued (if any) and the drag state after the handler runs.  Mirrors the
source control flow: the out-of-month guard applies only when no extend drag
is active; the extend branch compares the drop date with the start date; the
move branch rejects global events, ignores a drop on the current start date,
and otherwise shifts both endpoints by the getTime difference. -/
def handleDrop (dropDate : Int) (inCurrentMonth : Bool) (s : DragState) :
    Option Mutation × DragState :=
  if !inCurrentMonth && s.extendingEvent.isNone then
    (none, { s with draggedEvent := none })
  else
    match s.extendingEvent with
    | some ev =>
      if ev.brandId.isNone then
        (none, { s with extendingEvent := none })
      else if ev.startDate < dropDate then
        (some (.setEndDate ev.id (some dropDate)), { s with extendingEvent := none })
      else
        (some (.setEndDate ev.id none), { s with extendingEvent := none })
    | none =>
      match s.draggedEvent with
      | some ev =>
        if ev.brandId.isNone then
          (none, { s with draggedEvent := none })
        else if ev.startDate ≠ dropDate then
          match ev.endDate with
          | some e =>
            (some (.setStartAndEnd ev.id dropDate (dropDate + (e - ev.startDate))),
              { s with draggedEvent := none })
          | none =>
            (some (.setStartDate ev.id dropDate), { s with draggedEvent := none })
        else
          (none, { s with draggedEvent := none })
      | none => (none, s)

/-- handleDragEnd from DailyViewModal: clears both slots, no mutation. -/
def handleDragEnd (_s : DragState) : DragState := idleState

theorem brandId_isNone_false {ev : CalendarEvent} (h : ev.brandId ≠ none) :
    ev.brandId.isNone = false := by
  cases hb : ev.brandId with
  | none => exact absurd hb h
  | some b => rfl

/-- Claim C1: for every owned event in an extend drag, a drop strictly after
the start date issues a mutation setting endDate to the drop date, and a drop
on or before the start date issues a mutation clearing endDate entirely
(collapse to single-day); in both cases the extend slot clears. -/
theorem C1_extendDropResolution (ev : CalendarEvent) (st : DragState)
    (dropDate : Int) (inCurrentMonth : Bool)
    (howned : ev.brandId ≠ none) (hext : st.extendingEvent = some ev) :
    (ev.startDate < dropDate →
      handleDrop dropDate inCurrentMonth st =
        (some (.setEndDate ev.id (some dropDate)),
          { st with extendingEvent := none })) ∧
    (dropDate ≤ ev.startDate →
      handleDrop dropDate inCurrentMonth st =
        (some (.setEndDate ev.id none), { st with extendingEvent := none })) := by
  obtain ⟨dr, ex⟩ := st
  simp only [DragState.extendingEvent] at hext
  subst hext
  have hb := brandId_isNone_false howned
  constructor
  · intro h
    simp [handleDrop, hb, h]
  · intro h
    have h2 : ¬ ev.startDate < dropDate := not_lt.mpr h
    simp [handleDrop, hb, h2]

/-- Witness for C1: a concrete owned campaign event starting on day 100 with
end 104; an extend drop on day 100 (the start) collapses, a drop on day 99
(one day before the start) collapses, and a drop on day 107 extends. -/
def extendProbe : CalendarEvent :=
  { id := "e1", brandId := some ("b1"), title := "Campaign",
    type := .campaignFlight, startDate := 100, endDate := some 104 }

theorem C1_extendDropResolution_witness :
    handleDrop 100 true { draggedEvent := none, extendingEvent := some extendProbe } =
      (some (.setEndDate "e1" none),
        { draggedEvent := none, extendingEvent := none }) ∧
    handleDrop 99 true { draggedEvent := none, extendingEvent := some extendProbe } =
      (some (.setEndDate "e1" none),
        { draggedEvent := none, extendingEvent := none }) ∧
    handleDrop 107 true { draggedEvent := none, extendingEvent := some extendProbe } =
      (some (.setEndDate "e1" (some 107)),
        { draggedEvent := none, extendingEvent := none }) :=
  ⟨(C1_extendDropResolution extendProbe
      { draggedEvent := none, extendingEvent := some extendProbe }
      100 true (by decide) rfl).2 (by decide),
   (C1_extendDropResolution extendProbe
      { draggedEvent := none, extendingEvent := some extendProbe }
      99 true (by decide) rfl).2 (by decide),
   (C1_extendDropResolution extendProbe
      { draggedEvent := none, extendingEvent := some extendProbe }
      107 true (by decide) rfl).1 (by decide)⟩

/-- Claim C2: for every owned multi-day event in a move drag, a drop on the
current start date issues no mutation, and a drop on any other in-month date
sets startDate to the drop date and shifts endDate by the same delta, so
durationDays is preserved. -/
theorem C2_moveDropResolution (ev : CalendarEvent) (st : DragState)
    (dropDate e : Int)
    (howned : ev.brandId ≠ none) (hmulti : ev.endDate = some e)
    (hdrag : st.draggedEvent = some ev) (hext : st.extendingEvent = none) :
    handleDrop ev.startDate true st = (none, { st with draggedEvent := none }) ∧
    (dropDate ≠ ev.startDate →
      handleDrop dropDate true st =
        (some (.setStartAndEnd ev.id dropDate (dropDate + (e - ev.startDate))),
          { st with draggedEvent := none }) ∧
      durationDays { ev with startDate := dropDate,
                             endDate := some (dropDate + (e - ev.startDate)) } =
        durationDays ev) := by
  obtain ⟨dr, ex⟩ := st
  simp only [DragState.draggedEvent, DragState.extendingEvent] at hdrag hext
  subst hdrag; subst hext
  have hb := brandId_isNone_false howned
  constructor
  · simp [handleDrop, hb]
  · intro h
    have h2 : ev.startDate ≠ dropDate := fun hh => h hh.symm
    constructor
    · simp [handleDrop, hb, h2, hmulti]
    · simp [durationDays, hmulti]

/-- Witness for C2: the spec example, an owned event spanning 2025-03-10 to
2025-03-15 (day numbers 20157 to 20162) moved to start 2025-03-20 (20167)
ends on 2025-03-25 (20172); dropping on the start date is a no-op. -/
def moveProbe : CalendarEvent :=
  { id := "m1", brandId := some ("b1"), title := "Flight",
    type := .campaignFlight, startDate := daysFromCivil 2025 3 10,
    endDate := some (daysFromCivil 2025 3 15) }

theorem C2_moveDropResolution_witness :
    handleDrop (daysFromCivil 2025 3 10) true
        { draggedEvent := some moveProbe, extendingEvent := none } =
      (none, { draggedEvent := none, extendingEvent := none }) ∧
    handleDrop (daysFromCivil 2025 3 20) true
        { draggedEvent := some moveProbe, extendingEvent := none } =
      (some (.setStartAndEnd "m1" (daysFromCivil 2025 3 20) (daysFromCivil 2025 3 25)),
        { draggedEvent := none, extendingEvent := none }) := by
  have h := C2_moveDropResolution moveProbe
      { draggedEvent := some moveProbe, extendingEvent := none }
      (daysFromCivil 2025 3 20) (daysFromCivil 2025 3 15) (by decide) rfl rfl rfl
  refine ⟨h.1, ?_⟩
  rw [(h.2 (by decide)).1]
  decide

/-- A concrete global event (brandId null), a single-day public holiday. -/
def globalHoliday : CalendarEvent :=
  { id := "g1", brandId := none, title := "Heritage Day",
    type := .publicHoliday, startDate := 200, endDate := none }

/-- Claim C3 counterexample: the single-day pill is draggable regardless of
ownership and handleDragStart stores the global event in the move slot, so a
move drag-start on a global event does transition out of Idle. -/
theorem C3_globalDragStart_counterexample :
    dayEventPillMoveDraggable globalHoliday = true ∧
    handleDragStart globalHoliday idleState =
      { draggedEvent := some globalHoliday, extendingEvent := none } ∧
    handleDragStart globalHoliday idleState ≠ idleState := by
  decide

/-- Claim C3 amended: a move drag-start on a global event is suppressed only
for the multi-day event bar (whose draggable flag is canEdit, false for
global events); handleDragStart itself transitions any event into
Dragging(move), and the ownership restriction on global events is enforced
at drop instead: the drop issues no mutation and the state clears to Idle. -/
theorem C3_globalDragStart_amended (ev : CalendarEvent)
    (hglobal : ev.brandId = none) :
    (∀ st, handleDragStart ev st =
      { draggedEvent := some ev, extendingEvent := none }) ∧
    eventBarCanEdit ev = false ∧
    (∀ (dropDate : Int) (inCurrentMonth : Bool) (st : DragState),
      st.draggedEvent = some ev → st.extendingEvent = none →
      handleDrop dropDate inCurrentMonth st =
        (none, { st with draggedEvent := none })) := by
  refine ⟨fun st => rfl, by simp [eventBarCanEdit, hglobal], ?_⟩
  intro dropDate inCurrentMonth st hdrag hext
  obtain ⟨dr, ex⟩ := st
  simp only [DragState.draggedEvent, DragState.extendingEvent] at hdrag hext
  subst hdrag; subst hext
  cases inCurrentMonth <;> simp [handleDrop, hglobal]

theorem C3_globalDragStart_amended_witness :
    handleDragStart globalHoliday idleState =
      { draggedEvent := some globalHoliday, extendingEvent := none } ∧
    eventBarCanEdit globalHoliday = false ∧
    handleDrop 300 true { draggedEvent := some globalHoliday, extendingEvent := none } =
      (none, { draggedEvent := none, extendingEvent := none }) :=
  ⟨(C3_globalDragStart_amended globalHoliday rfl).1 idleState,
   (C3_globalDragStart_amended globalHoliday rfl).2.1,
   (C3_globalDragStart_amended globalHoliday rfl).2.2 300 true
     { draggedEvent := some globalHoliday, extendingEvent := none } rfl rfl⟩

/-- Claim C7: an out-of-month drop in move mode is rejected (no mutation, the
move slot clears), while the out-of-month guard never affects extend mode:
with an active extend drag the drop handler behaves identically whether or
not the target cell lies in the current month. -/
theorem C7_outOfMonthMoveRejected (ev : CalendarEvent) (st : DragState)
    (dropDate : Int)
    (hdrag : st.draggedEvent = some ev) (hext : st.extendingEvent = none) :
    handleDrop dropDate false st = (none, { st with draggedEvent := none }) ∧
    (∀ (st2 : DragState) (ev2 : CalendarEvent), st2.extendingEvent = some ev2 →
      handleDrop dropDate false st2 = handleDrop dropDate true st2) := by
  constructor
  · obtain ⟨dr, ex⟩ := st
    simp only [DragState.draggedEvent, DragState.extendingEvent] at hdrag hext
    subst hdrag; subst hext
    simp [handleDrop]
  · intro st2 ev2 hext2
    obtain ⟨dr2, ex2⟩ := st2
    simp only [DragState.extendingEvent] at hext2
    subst hext2
    simp [handleDrop]

theorem C7_outOfMonthMoveRejected_witness :
    handleDrop 250 false { draggedEvent := some moveProbe, extendingEvent := none } =
      (none, { draggedEvent := none, extendingEvent := none }) ∧
    handleDrop 250 false { draggedEvent := none, extendingEvent := some extendProbe } =
      handleDrop 250 true { draggedEvent := none, extendingEvent := some extendProbe } :=
  ⟨(C7_outOfMonthMoveRejected moveProbe
      { draggedEvent := some moveProbe, extendingEvent := none } 250 rfl rfl).1,
   (C7_outOfMonthMoveRejected moveProbe
      { draggedEvent := some moveProbe, extendingEvent := none } 250 rfl rfl).2
     { draggedEvent := none, extendingEvent := some extendProbe } extendProbe rfl⟩

/-- The multi-day test of the bucketing useMemo in DailyViewModal: endDate is
present (truthy) and differs from startDate.  The category is not consulted. -/
def isMultiDayStored (ev : CalendarEvent) : Bool :=
  match ev.endDate with
  | some e => decide (e ≠ ev.startDate)
  | none => false

/-- The multiDayEvents and singleDayEvents partition of DailyViewModal:
each filtered event is pushed onto the multiDay list when isMultiDayStored
holds and onto the singleDay list otherwise, preserving order. -/
def bucketEvents : List CalendarEvent → List CalendarEvent × List CalendarEvent
  | [] => ([], [])
  | ev :: rest =>
    let buckets := bucketEvents rest
    if isMultiDayStored ev then (ev :: buckets.1, buckets.2)
    else (buckets.1, ev :: buckets.2)

/-- A season event carrying a stray endDate different from its startDate. -/
def straySeasonEvent : CalendarEvent :=
  { id := "s1", brandId := none, title := "Summer",
    type := .season, startDate := 20050, endDate := some 20110 }

/-- Claim C4 counterexample: a season event (a category that does not support
multi-day spans, canExtendEvent false) with a stray endDate is placed in the
multiDay bucket and not in the singleDay bucket, so the bucketing performs no
defensive single-day normalization by category. -/
theorem C4_bucketingNormalization_counterexample :
    canExtendEvent straySeasonEvent.type = false ∧
    (bucketEvents [straySeasonEvent]).1 = [straySeasonEvent] ∧
    (bucketEvents [straySeasonEvent]).2 = [] := by
  decide

/-- Claim C4 amended: the single-day versus multi-day partition is purely
date-based: an event lands in the multiDay bucket exactly when its endDate is
present and differs from its startDate, regardless of category; the category
restriction (canExtendEvent) gates only the drag-extend affordance, not the
bucketing. -/
theorem C4_bucketingNormalization_amended (events : List CalendarEvent) :
    (bucketEvents events).1 = events.filter (fun ev => isMultiDayStored ev) ∧
    (bucketEvents events).2 = events.filter (fun ev => !isMultiDayStored ev) := by
  induction events with
  | nil => exact ⟨rfl, rfl⟩
  | cons ev rest ih =>
    by_cases h : isMultiDayStored ev = true
    · simp [bucketEvents, List.filter, h, ih.1, ih.2]
    · simp only [Bool.not_eq_true] at h
      simp [bucketEvents, List.filter, h, ih.1, ih.2]

/-- FilterState from src/lib/types.ts: the six category toggles. -/
structure FilterState where
  keyDates : Bool
  school : Bool
  seasons : Bool
  brandDates : Bool
  campaignFlights : Bool
  deadlines : Bool
deriving DecidableEq

/-- The per-event test of filterEvents in src/lib/utils.ts: a switch on the
event category; keyDate and deadline fall into the default branch and always
pass.  The deadlines toggle is never read. -/
def eventPassesFilter (filters : FilterState) (ev : CalendarEvent) : Bool :=
  match ev.type with
  | .publicHoliday | .culture => filters.keyDates
  | .schoolTerm | .backToSchool => filters.school
  | .season => filters.seasons
  | .brandMoment => filters.brandDates
  | .campaignFlight => filters.campaignFlights
  | _ => true

/-- filterEvents from src/lib/utils.ts. -/
def filterEvents (events : List CalendarEvent) (filters : FilterState) :
    List CalendarEvent :=
  events.filter (eventPassesFilter filters)

/-- Claim C10: the deadlines toggle is inert: two filter states that differ
only in the deadlines flag produce the same filtered list, and deadline and
keyDate events always pass the category filter. -/
theorem C10_deadlinesToggleInert (events : List CalendarEvent)
    (f1 f2 : FilterState)
    (h1 : f1.keyDates = f2.keyDates) (h2 : f1.school = f2.school)
    (h3 : f1.seasons = f2.seasons) (h4 : f1.brandDates = f2.brandDates)
    (h5 : f1.campaignFlights = f2.campaignFlights) :
    filterEvents events f1 = filterEvents events f2 ∧
    (∀ ev : CalendarEvent, ev.type = .deadline ∨ ev.type = .keyDate →
      eventPassesFilter f1 ev = true) := by
  constructor
  · unfold filterEvents
    apply List.filter_congr
    intro ev _
    cases ev with
    | mk id brandId title t startDate endDate =>
      cases t <;> simp [eventPassesFilter, h1, h2, h3, h4, h5]
  · intro ev hev
    cases hev with
    | inl h => simp [eventPassesFilter, h]
    | inr h => simp [eventPassesFilter, h]

/-- A deadline event used to witness the inert deadlines toggle. -/
def deadlineProbe : CalendarEvent :=
  { id := "d1", brandId := some ("b1"), title := "Asset deadline",
    type := .deadline, startDate := 20100, endDate := none }

theorem C10_deadlinesToggleInert_witness :
    filterEvents [deadlineProbe]
        { keyDates := true, school := true, seasons := true,
          brandDates := true, campaignFlights := true, deadlines := true } =
      filterEvents [deadlineProbe]
        { keyDates := true, school := true, seasons := true,
          brandDates := true, campaignFlights := true, deadlines := false } ∧
    eventPassesFilter
        { keyDates := true, school := true, seasons := true,
          brandDates := true, campaignFlights := true, deadlines := true }
        deadlineProbe = true :=
  ⟨(C10_deadlinesToggleInert [deadlineProbe]
      { keyDates := true, school := true, seasons := true,
        brandDates := true, campaignFlights := true, deadlines := true }
      { keyDates := true, school := true, seasons := true,
        brandDates := true, campaignFlights := true, deadlines := false }
      rfl rfl rfl rfl rfl).1,
   (C10_deadlinesToggleInert [deadlineProbe]
      { keyDates := true, school := true, seasons := true,
        brandDates := true, campaignFlights := true, deadlines := true }
      { keyDates := true, school := true, seasons := true,
        brandDates := true, campaignFlights := true, deadlines := false }
      rfl rfl rfl rfl rfl).2 deadlineProbe (Or.inl rfl)⟩

/-- The priorities literal local to sortEvents in src/lib/utils.ts.  The
literal lists only seven of the nine categories: keyDate and deadline are
absent, so a JS lookup on those keys yields undefined, modeled as none. -/
def sortEventsPriorities (t : EventType) : Option Int :=
  match t with
  | .publicHoliday => some 0
  | .backToSchool => some 1
  | .schoolTerm => some 2
  | .brandMoment => some 3
  | .campaignFlight => some 4
  | .culture => some 5
  | .season => some 6
  | .keyDate => none
  | .deadline => none

/-- localeCompare on canonical YYYY-MM-DD strings: the sign of the
chronological comparison. -/
def localeCompareDates (a b : Int) : Int :=
  if a < b then -1 else if b < a then 1 else 0

/-- The sortEvents comparator body: priorityDiff = priorities[a.type] -
priorities[b.type]; returned when nonzero, else the startDate comparison.
When either lookup is undefined the subtraction is NaN, NaN !== 0 holds, and
the comparator returns NaN; none models the NaN result. -/
def sortEventsCompareRaw (a b : CalendarEvent) : Option Int :=
  match sortEventsPriorities a.type, sortEventsPriorities b.type with
  | some pa, some pb =>
    if pa - pb ≠ 0 then some (pa - pb)
    else some (localeCompareDates a.startDate b.startDate)
  | _, _ => none

/-- The comparator as consumed by Array.prototype.sort: the ES SortCompare
step coerces a NaN comparator result to +0 (the elements compare equal). -/
def sortEventsCompare (a b : CalendarEvent) : Int :=
  (sortEventsCompareRaw a b).getD 0

/-- Stable insertion respecting a three-way comparator: x stays before the
first element it does not compare after. -/
def insertByCompare (cmp : CalendarEvent → CalendarEvent → Int)
    (x : CalendarEvent) : List CalendarEvent → List CalendarEvent
  | [] => [x]
  | y :: ys =>
    if cmp x y ≤ 0 then x :: y :: ys else y :: insertByCompare cmp x ys

/-- Stable sort by a three-way comparator; Array.prototype.sort is required
to be stable (ES2019) and to order by the comparator. -/
def stableSortByCompare (cmp : CalendarEvent → CalendarEvent → Int) :
    List CalendarEvent → List CalendarEvent
  | [] => []
  | x :: xs => insertByCompare cmp x (stableSortByCompare cmp xs)

/-- sortEvents from src/lib/utils.ts, modeled with a stable comparator sort. -/
def sortEvents (events : List CalendarEvent) : List CalendarEvent :=
  stableSortByCompare sortEventsCompare events

/-- EVENT_TYPE_PRIORITY from src/lib/types.ts, the declared sort priority
table (lower value sorts first; deadlines are documented as high priority). -/
def EVENT_TYPE_PRIORITY (t : EventType) : Int :=
  match t with
  | .publicHoliday => 0
  | .deadline => 1
  | .backToSchool => 2
  | .schoolTerm => 3
  | .brandMoment => 4
  | .campaignFlight => 5
  | .keyDate => 6
  | .culture => 7
  | .season => 8

/-- A backToSchool event, placed first in the failing input list. -/
def backToSchoolProbe : CalendarEvent :=
  { id := "bts1", brandId := none, title := "Back to school",
    type := .backToSchool, startDate := 20200, endDate := none }

/-- A deadline event, placed second in the failing input list. -/
def deadlineSortProbe : CalendarEvent :=
  { id := "dl1", brandId := some ("b1"), title := "Print deadline",
    type := .deadline, startDate := 20100, endDate := none }

/-- Claim C5: the declared priority table EVENT_TYPE_PRIORITY puts deadline
(1) before backToSchool (2), but the priorities literal inside sortEvents has
no deadline entry, so the comparator evaluates to NaN (coerced to 0) on a
deadline versus backToSchool pair and the stable sort leaves the pair in
input order: the deadline event does not sort before the backToSchool event. -/
theorem C5_sortDeadlinePriorityLost :
    EVENT_TYPE_PRIORITY .deadline < EVENT_TYPE_PRIORITY .backToSchool ∧
    sortEventsPriorities .deadline = none ∧
    sortEventsCompare deadlineSortProbe backToSchoolProbe = 0 ∧
    sortEventsCompare backToSchoolProbe deadlineSortProbe = 0 ∧
    sortEvents [backToSchoolProbe, deadlineSortProbe] =
      [backToSchoolProbe, deadlineSortProbe] := by
  decide

/-- A civil date (year, month 1-12, day 1-31): the parsed view of a
canonical YYYY-MM-DD string used by the recurrence materializer. -/
structure Ymd where
  year : Int
  month : Nat
  day : Nat
deriving DecidableEq

/-- The recurrence shape from types.ts: freq is always yearly. -/
inductive RecurFreq
  | yearly
deriving DecidableEq

/-- CalendarEvent as consumed by materializeRecurringEvents, with dates in
civil form so that the year/month/day manipulation of date-fns addYears is
expressible. -/
structure RecEvent where
  id : String
  brandId : Option String
  title : String
  type : EventType
  startDate : Ymd
  endDate : Option Ymd
  recurrence : Option RecurFreq
deriving DecidableEq

/-- date-fns addYears: the year is shifted, the month kept, and the day
clamped to the last day of the resulting month (Feb 29 into a non-leap year
becomes Feb 28). -/
def addYearsClamped (d : Ymd) (n : Int) : Ymd :=
  { year := d.year + n, month := d.month,
    day := min d.day (daysInMonth (d.year + n) d.month) }

/-- The per-event step of materializeRecurringEvents in src/lib/utils.ts:
yearly events in another year are copied with both dates shifted by the
whole-year delta and the id suffixed with the target year; yearly events
already in the target year pass through; non-recurring events are kept only
when their start year equals the target year. -/
def materializeOne (targetYear : Int) (ev : RecEvent) : Option RecEvent :=
  match ev.recurrence with
  | some .yearly =>
    if ev.startDate.year ≠ targetYear then
      some { ev with
        id := ev.id ++ "-" ++ toString targetYear,
        startDate := addYearsClamped ev.startDate (targetYear - ev.startDate.year),
        endDate := ev.endDate.map
          (fun d => addYearsClamped d (targetYear - ev.startDate.year)) }
    else some ev
  | none => if ev.startDate.year = targetYear then some ev else none

/-- materializeRecurringEvents from src/lib/utils.ts: the for-loop pushing
each materialized event in input order. -/
def materializeRecurringEvents (events : List RecEvent) (targetYear : Int) :
    List RecEvent :=
  events.filterMap (materializeOne targetYear)

/-- Claim C6: materializing a yearly event stored in another year synthesizes
one copy whose id is the original id suffixed with the target year and whose
startDate keeps the month with the year replaced; the day is kept whenever it
exists in the target month and a Feb 29 shifted into a non-leap year resolves
to Feb 28; the endDate, when present, is shifted by the same whole-year
delta. -/
theorem C6_recurrenceShift (ev : RecEvent) (targetYear : Int)
    (hrec : ev.recurrence = some .yearly)
    (hne : ev.startDate.year ≠ targetYear) :
    ∃ copy : RecEvent,
      materializeOne targetYear ev = some copy ∧
      materializeRecurringEvents [ev] targetYear = [copy] ∧
      copy.id = ev.id ++ "-" ++ toString targetYear ∧
      copy.startDate.year = targetYear ∧
      copy.startDate.month = ev.startDate.month ∧
      copy.startDate.day =
        min ev.startDate.day (daysInMonth targetYear ev.startDate.month) ∧
      (ev.startDate.day ≤ daysInMonth targetYear ev.startDate.month →
        copy.startDate.day = ev.startDate.day) ∧
      (ev.startDate.month = 2 → ev.startDate.day = 29 →
        isLeapYear targetYear = false → copy.startDate.day = 28) ∧
      copy.endDate = ev.endDate.map
        (fun d => addYearsClamped d (targetYear - ev.startDate.year)) := by
  refine ⟨{ ev with
      id := ev.id ++ "-" ++ toString targetYear,
      startDate := addYearsClamped ev.startDate (targetYear - ev.startDate.year),
      endDate := ev.endDate.map
        (fun d => addYearsClamped d (targetYear - ev.startDate.year)) },
    ?_, ?_, rfl, ?_, rfl, ?_, ?_, ?_, rfl⟩
  · simp [materializeOne, hrec, hne]
  · simp [materializeRecurringEvents, List.filterMap, materializeOne, hrec, hne]
  · simp [addYearsClamped]
  · simp [addYearsClamped]
  · intro h
    simp [addYearsClamped]
    omega
  · intro hm hd hleap
    simp [addYearsClamped, hm, hd, daysInMonth, hleap]

/-- A yearly brand moment stored at 2024-02-29, materialized into 2025. -/
def leapProbe : RecEvent :=
  { id := "bday", brandId := some ("b1"), title := "Founder birthday",
    type := .brandMoment, startDate := { year := 2024, month := 2, day := 29 },
    endDate := none, recurrence := some .yearly }

theorem C6_recurrenceShift_witness :
    ∃ copy : RecEvent,
      materializeOne 2025 leapProbe = some copy ∧
      materializeRecurringEvents [leapProbe] 2025 = [copy] ∧
      copy.id = "bday-2025" ∧
      copy.startDate.year = 2025 ∧
      copy.startDate.month = 2 ∧
      copy.startDate.day = 28 := by
  obtain ⟨c, h1, h2, h3, h4, h5, h6, h7, h8, h9⟩ :=
    C6_recurrenceShift leapProbe 2025 rfl (by decide)
  refine ⟨c, h1, h2, ?_, h4, ?_, ?_⟩
  · rw [h3]; decide
  · rw [h5]; decide
  · exact h8 rfl rfl (by decide)

/-- The WeekSpan record produced by calcEventPosition in DailyViewModal. -/
structure WeekPos where
  startCol : Nat
  endCol : Nat
  isStart : Bool
  isEnd : Bool
deriving DecidableEq

/-- The startCol loop of calcEventPosition, unrolled: weekDays i is the day
number w + i, the loop scans i = 0..6 and keeps the first i whose day is on
or after the event start, with the initialization value 0 when no day
qualifies. -/
def findStartCol (eventStart w : Int) : Nat :=
  if eventStart ≤ w then 0
  else if eventStart ≤ w + 1 then 1
  else if eventStart ≤ w + 2 then 2
  else if eventStart ≤ w + 3 then 3
  else if eventStart ≤ w + 4 then 4
  else if eventStart ≤ w + 5 then 5
  else if eventStart ≤ w + 6 then 6
  else 0

/-- The endCol loop of calcEventPosition, unrolled: the loop scans i = 6..0
and keeps the first i whose day is on or before the event end, with the
initialization value 6 when no day qualifies. -/
def findEndCol (eventEnd w : Int) : Nat :=
  if w + 6 ≤ eventEnd then 6
  else if w + 5 ≤ eventEnd then 5
  else if w + 4 ≤ eventEnd then 4
  else if w + 3 ≤ eventEnd then 3
  else if w + 2 ≤ eventEnd then 2
  else if w + 1 ≤ eventEnd then 1
  else if w ≤ eventEnd then 0
  else 6

/-- calcEventPosition from DailyViewModal for a week of seven consecutive
days starting at day number w: none when the event span does not overlap the
week, otherwise the start and end columns together with the truncation
flags. -/
def calcEventPosition (ev : CalendarEvent) (w : Int) : Option WeekPos :=
  let weekEnd := w + 6
  let eventStart := ev.startDate
  let eventEnd := ev.endDate.getD ev.startDate
  if weekEnd < eventStart ∨ eventEnd < w then none
  else some
    { startCol := findStartCol eventStart w,
      endCol := findEndCol eventEnd w,
      isStart := decide (w ≤ eventStart),
      isEnd := decide (eventEnd ≤ weekEnd) }

/-- Claim C9: for every multi-day event with endDate on or after startDate
and every week of seven consecutive days whose range overlaps the event span,
calcEventPosition returns columns with startCol less than or equal to endCol,
both within 0..6; startCol is the index of the first day of the week on or
after the event start (0 when the event starts before the week) and endCol is
the index of the last day on or before the event end (6 when the event ends
after the week). -/
theorem C9_weekSpanColumnBounds (ev : CalendarEvent) (e w : Int)
    (hend : ev.endDate = some e) (hord : ev.startDate ≤ e)
    (hov1 : ev.startDate ≤ w + 6) (hov2 : w ≤ e) :
    ∃ pos : WeekPos,
      calcEventPosition ev w = some pos ∧
      pos.startCol ≤ pos.endCol ∧
      pos.endCol ≤ 6 ∧
      pos.startCol = (if ev.startDate ≤ w then 0 else (ev.startDate - w).toNat) ∧
      pos.endCol = (if w + 6 ≤ e then 6 else (e - w).toNat) := by
  have hg : ¬ (w + 6 < ev.startDate ∨ e < w) := by omega
  have hsc : findStartCol ev.startDate w =
      (if ev.startDate ≤ w then 0 else (ev.startDate - w).toNat) := by
    unfold findStartCol
    split_ifs <;> omega
  have hec : findEndCol e w = (if w + 6 ≤ e then 6 else (e - w).toNat) := by
    unfold findEndCol
    split_ifs <;> omega
  refine ⟨{ startCol := findStartCol ev.startDate w,
            endCol := findEndCol e w,
            isStart := decide (w ≤ ev.startDate),
            isEnd := decide (e ≤ w + 6) }, ?_, ?_, ?_, hsc, hec⟩
  · simp only [calcEventPosition, hend, Option.getD_some, if_neg hg]
  · dsimp only
    rw [hsc, hec]
    split_ifs <;> omega
  · dsimp only
    rw [hec]
    split_ifs <;> omega

/-- Witness for C9: an event spanning days 103 to 109 against the week of
days 100..106: start column 3, end column 6. -/
def spanProbe : CalendarEvent :=
  { id := "sp1", brandId := some ("b1"), title := "Span",
    type := .brandMoment, startDate := 103, endDate := some 109 }

/-- eachDayOfInterval from date-fns: the consecutive days from start to
finish inclusive. -/
def eachDayOfInterval (start finish : Int) : List Int :=
  (List.range (finish - start + 1).toNat).map (fun i : Nat => start + (i : Int))

/-- The padding loop of the calendarDays useMemo: when the Monday-to-Sunday
interval holds fewer than 42 days, successor days of the last day are pushed
until the grid holds 42 days. -/
def padTo42 (days : List Int) (lastDay : Int) : List Int :=
  if days.length < 42 then
    days ++ (List.range (42 - days.length)).map (fun i : Nat => lastDay + 1 + (i : Int))
  else days

/-- The calendarDays useMemo of DailyViewModal: from the Monday on or before
the first of the month through the Sunday on or after the last of the month,
then padded forward until the grid holds 42 days. -/
def calendarDays (monthStart : Int) (monthLen : Nat) : List Int :=
  padTo42
    (eachDayOfInterval (startOfWeekMonday monthStart)
      (endOfWeekSunday (monthStart + (monthLen : Int) - 1)))
    (endOfWeekSunday (monthStart + (monthLen : Int) - 1))

/-- The weeks useMemo of DailyViewModal: consecutive slices of seven days. -/
def chunkWeeks : List Int → List (List Int)
  | [] => []
  | x :: xs => (x :: xs).take 7 :: chunkWeeks (xs.drop 6)
termination_by l => l.length
decreasing_by simp [List.length_drop]; omega

/-- Day number of the first day of a month given as 0-11, as the component
receives it. -/
def monthFirstDay (year : Int) (month : Nat) : Int :=
  daysFromCivil year (month + 1) 1

/-- The 42-day grid of the daily view for a month (0-11) and year. -/
def monthGrid (year : Int) (month : Nat) : List Int :=
  calendarDays (monthFirstDay year month) (daysInMonth year (month + 1))

/-- The six week rows of the daily view grid. -/
def monthWeeks (year : Int) (month : Nat) : List (List Int) :=
  chunkWeeks (monthGrid year month)

theorem daysInMonth_bounds (y : Int) (m : Nat) :
    28 ≤ daysInMonth y m ∧ daysInMonth y m ≤ 31 := by
  unfold daysInMonth
  split_ifs <;> omega

theorem sowm_eq (d : Int) : startOfWeekMonday d = d - (d + 3) % 7 := by
  unfold startOfWeekMonday dayOfWeek
  omega

theorem dayOfWeek_sowm (d : Int) : dayOfWeek (startOfWeekMonday d) = 1 := by
  rw [sowm_eq]
  unfold dayOfWeek
  omega

theorem startOfWeekMonday_facts (d : Int) :
    startOfWeekMonday d ≤ d ∧ d - startOfWeekMonday d < 7 ∧
      dayOfWeek (startOfWeekMonday d) = 1 := by
  refine ⟨?_, ?_, dayOfWeek_sowm d⟩ <;> rw [sowm_eq] <;> omega

theorem range_map_split (f : Nat → Int) (n m : Nat) (h : n ≤ m) :
    (List.range m).map f =
      (List.range n).map f ++ (List.range (m - n)).map (fun i => f (n + i)) := by
  conv_lhs => rw [show m = n + (m - n) by omega]
  rw [List.range_add, List.map_append, List.map_map]
  rfl

theorem gridSpan_bounds (a : Int) (len : Nat) (h1 : 28 ≤ len) (h2 : len ≤ 31) :
    28 ≤ endOfWeekSunday (a + (len : Int) - 1) - startOfWeekMonday a + 1 ∧
      endOfWeekSunday (a + (len : Int) - 1) - startOfWeekMonday a + 1 ≤ 42 := by
  unfold endOfWeekSunday
  rw [sowm_eq, sowm_eq]
  omega

theorem calendarDays_closedForm (a : Int) (len : Nat)
    (h1 : 28 ≤ len) (h2 : len ≤ 31) :
    calendarDays a len =
      (List.range 42).map (fun i : Nat => startOfWeekMonday a + (i : Int)) := by
  obtain ⟨hlo, hhi⟩ := gridSpan_bounds a len h1 h2
  set s := startOfWeekMonday a with hs
  set e2 := endOfWeekSunday (a + (len : Int) - 1) with he2
  unfold calendarDays
  rw [← hs, ← he2]
  unfold padTo42 eachDayOfInterval
  rw [List.length_map, List.length_range]
  by_cases hc : (e2 - s + 1).toNat < 42
  · rw [if_pos hc]
    rw [range_map_split (fun i : Nat => s + (i : Int)) ((e2 - s + 1).toNat) 42 (by omega)]
    congr 1
    have hfun : (fun i : Nat => e2 + 1 + (i : Int)) =
        (fun i : Nat => s + (((e2 - s + 1).toNat + i : Nat) : Int)) := by
      funext i
      push_cast
      omega
    rw [hfun]
  · rw [if_neg hc]
    have h42 : (e2 - s + 1).toNat = 42 := by omega
    rw [h42]

theorem chunkWeeks_flatten (l : List Int) : (chunkWeeks l).flatten = l := by
  induction l using chunkWeeks.induct with
  | case1 => simp [chunkWeeks]
  | case2 x xs ih =>
    simp only [chunkWeeks, List.flatten_cons]
    rw [ih]
    have hdrop : xs.drop 6 = (x :: xs).drop 7 := rfl
    rw [hdrop]
    exact List.take_append_drop 7 (x :: xs)

theorem chunkWeeks_shape (n : Nat) :
    ∀ l : List Int, l.length = 7 * n →
      (chunkWeeks l).length = n ∧ ∀ w ∈ chunkWeeks l, w.length = 7 := by
  induction n with
  | zero =>
    intro l h
    have hl : l = [] := List.length_eq_zero.mp (by omega)
    subst hl
    simp [chunkWeeks]
  | succ k ih =>
    intro l h
    match l with
    | [] =>
      simp only [List.length_nil] at h
      omega
    | x :: xs =>
      have hxs : xs.length = 7 * k + 6 := by
        simp only [List.length_cons] at h
        omega
      have hdrop : (xs.drop 6).length = 7 * k := by
        simp only [List.length_drop]
        omega
      obtain ⟨ihlen, ihmem⟩ := ih (xs.drop 6) hdrop
      constructor
      · simp only [chunkWeeks, List.length_cons, ihlen]
      · intro w hw
        simp only [chunkWeeks, List.mem_cons] at hw
        cases hw with
        | inl hw =>
          subst hw
          simp only [List.length_take, List.length_cons]
          omega
        | inr hw => exact ihmem w hw

/-- Claim C8: for every month (0-11) and year, the grid builder returns
exactly 42 dates chunked into 6 consecutive weeks of 7 days; the dates are
consecutive starting from the Monday on or before the first of the month
(position i holds that Monday plus i), and every day of the requested month
occurs in the grid. -/
theorem C8_gridShape (year : Int) (month : Nat) (_hm : month < 12) :
    (monthGrid year month).length = 42 ∧
    (monthWeeks year month).length = 6 ∧
    (∀ w ∈ monthWeeks year month, w.length = 7) ∧
    (monthWeeks year month).flatten = monthGrid year month ∧
    (∀ i : Nat, i < 42 →
      (monthGrid year month)[i]? =
        some (startOfWeekMonday (monthFirstDay year month) + (i : Int))) ∧
    dayOfWeek (startOfWeekMonday (monthFirstDay year month)) = 1 ∧
    startOfWeekMonday (monthFirstDay year month) ≤ monthFirstDay year month ∧
    monthFirstDay year month - startOfWeekMonday (monthFirstDay year month) < 7 ∧
    (∀ j : Nat, j < daysInMonth year (month + 1) →
      monthFirstDay year month + (j : Int) ∈ monthGrid year month) := by
  obtain ⟨hb1, hb2⟩ := daysInMonth_bounds year (month + 1)
  have hcf := calendarDays_closedForm (monthFirstDay year month)
      (daysInMonth year (month + 1)) hb1 hb2
  have hlen : (monthGrid year month).length = 42 := by
    rw [monthGrid, hcf]
    simp
  obtain ⟨hw1, hw2⟩ := chunkWeeks_shape 6 (monthGrid year month) (by rw [hlen])
  have hsow := startOfWeekMonday_facts (monthFirstDay year month)
  refine ⟨hlen, hw1, hw2, chunkWeeks_flatten _, ?_, hsow.2.2, hsow.1, hsow.2.1, ?_⟩
  · intro i hi
    rw [monthGrid, hcf, List.getElem?_map, List.getElem?_range hi]
    rfl
  · intro j hj
    rw [monthGrid, hcf]
    refine List.mem_map.2
      ⟨(monthFirstDay year month - startOfWeekMonday (monthFirstDay year month)).toNat + j,
        List.mem_range.2 (by omega), ?_⟩
    push_cast
    omega

/-- Witness for C8: February 2024 (leap year) and February 2025 (non-leap)
both produce 42-day grids in six week rows. -/
theorem C8_gridShape_witness :
    (monthGrid 2024 1).length = 42 ∧ (monthGrid 2025 1).length = 42 ∧
    (monthWeeks 2024 1).length = 6 ∧ (monthWeeks 2025 1).length = 6 :=
  ⟨(C8_gridShape 2024 1 (by decide)).1, (C8_gridShape 2025 1 (by decide)).1,
   (C8_gridShape 2024 1 (by decide)).2.1, (C8_gridShape 2025 1 (by decide)).2.1⟩

theorem C9_weekSpanColumnBounds_witness :
    ∃ pos : WeekPos,
      calcEventPosition spanProbe 100 = some pos ∧
      pos.startCol ≤ pos.endCol ∧
      pos.endCol ≤ 6 ∧
      pos.startCol = (if spanProbe.startDate ≤ 100 then 0
        else (spanProbe.startDate - 100).toNat) ∧
      pos.endCol = (if (100 : Int) + 6 ≤ 109 then 6 else ((109 : Int) - 100).toNat) :=
  C9_weekSpanColumnBounds spanProbe 109 100 rfl (by decide) (by decide) (by decide)

end Cal
